import Mathlib

/-!
# Verification of the ccw-mcp core engine

Shallow embedding of the `ccw_mcp` Python package (capsule registry,
counterfactual execution layers, witness engine, policy engine, promotion)
together with proofs settling the frozen specification claims.

Conventions of the embedding:
* Python `dict`s are association lists (`Dict α`) with first-match lookup and
  replace-or-append insertion, matching CPython insertion-order semantics.
* Python `str(n)` of a non-negative integer is `decStr`; `f"..."` formatting is
  string concatenation.
* The external `blake3` digest is modelled as an injective tagged rendering of
  the input bytes; only determinism and collision-freeness of the digest are
  used, which is the standard idealisation of a cryptographic hash.
* Filesystem directories are association lists from relative path strings to
  contents; wall-clock readings (`time.time()`) enter as explicit parameters.
-/

namespace CcwMcp

/-- Decimal digits of `n`, most significant first, by fuel recursion
(`fuel = n` always suffices); mirrors Python `str(int)` for `n ≥ 0`. -/
def decAux : Nat → Nat → List Char
  | 0, n => [Nat.digitChar (n % 10)]
  | fuel + 1, n =>
    if n < 10 then [Nat.digitChar n]
    else decAux fuel (n / 10) ++ [Nat.digitChar (n % 10)]

/-- Python `str(n)` for a natural number. -/
def decStr (n : Nat) : String := ⟨decAux n n⟩

/-- Python `str(i)` for an integer (sign prepended for negatives). -/
def intStr (i : Int) : String :=
  if i < 0 then "-" ++ decStr i.natAbs else decStr i.natAbs

/-- Numeric value of a decimal digit character. -/
def digitVal (c : Char) : Nat := c.toNat - 48

/-- Value of a most-significant-first digit string. -/
def decVal (l : List Char) : Nat := l.foldl (fun a c => 10 * a + digitVal c) 0

/-! ## Association-list model of Python `dict` -/

/-- A Python `dict` with string keys, as an association list. -/
abbrev Dict (α : Type) := List (String × α)

/-- First-match lookup, i.e. `d[k]` / `d.get(k)`. -/
def dlookup {α : Type} : Dict α → String → Option α
  | [], _ => none
  | (k, v) :: rest, key => if k = key then some v else dlookup rest key

/-- `d[k] = v`: replace the first binding of `k` in place, else append. -/
def dinsert {α : Type} : Dict α → String → α → Dict α
  | [], k, v => [(k, v)]
  | (k0, v0) :: rest, k, v =>
    if k0 = k then (k, v) :: rest else (k0, v0) :: dinsert rest k v

/-- `d.update(e)`: fold the entries of `e` into `d`, later keys winning. -/
def dupdate {α : Type} (d e : Dict α) : Dict α :=
  e.foldl (fun acc kv => dinsert acc kv.1 kv.2) d

/-- The keys of a dict, in order. -/
def dkeys {α : Type} (d : Dict α) : List String := d.map Prod.fst

/-- No key occurs twice (always true of dicts built by `dinsert` from `[]`). -/
def NodupKeys {α : Type} (d : Dict α) : Prop := (dkeys d).Nodup

/-! ## Environment composition (capsule.py 214-233 → cel/linux.py 144-147,
cel/portable.py 84-87) -/

/-- `capsule.py` lines 216-220: project the host environment onto
`env_whitelist` (`env[var] = os.environ[var]` for whitelisted present vars). -/
def whitelistEnv (host : Dict String) (wl : List String) : Dict String :=
  wl.foldl
    (fun acc w =>
      match dlookup host w with
      | some x => dinsert acc w x
      | none => acc)
    []

/-- `capsule.py` lines 222-224: the `env` argument the capsule layer passes to
`cel.execute` — whitelist projection plus `CCW_CLOCK_OFFSET` when the clock
offset is non-zero. -/
def capsuleEnvArg (host : Dict String) (wl : List String) (off : Int) :
    Dict String :=
  let e := whitelistEnv host wl
  if off ≠ 0 then dinsert e ("CCW_CLOCK_OFFSET") (intStr off) else e

/-- `cel/linux.py` 144-147 and `cel/portable.py` 84-87:
`exec_env = os.environ.copy(); exec_env.update(env)`. -/
def celExecEnv (host : Dict String) (env : Dict String) : Dict String :=
  dupdate host env

/-- The full environment the child process receives on the capsule execute
path (capsule layer composed with the CEL layer). -/
def capsuleChildEnv (host : Dict String) (wl : List String) (off : Int) :
    Dict String :=
  celExecEnv host (capsuleEnvArg host wl off)

/-- The child environment as claim C1 words it: the host environment
*restricted* to the whitelist, overlaid with the caller-supplied env mapping,
with `CCW_CLOCK_OFFSET` injected exactly when the offset is non-zero.
(Spec-side definition, for comparison with `capsuleChildEnv`.) -/
def specRestrictedChildEnv (host : Dict String) (wl : List String)
    (callerEnv : Dict String) (off : Int) : Dict String :=
  let base := dupdate (whitelistEnv host wl) callerEnv
  if off ≠ 0 then dinsert base ("CCW_CLOCK_OFFSET") (intStr off) else base

/-! ## Capsule registry: ids and execute lookup (tools/capsule.py) -/

/-- `capsule.py` lines 59-61: `capsule_id = f"cap_{int(time.time() * 1000)}"`,
as a function of the observed millisecond timestamp. -/
def capsuleIdOf (t : Nat) : String := "cap_" ++ decStr t

/-- The ids returned by a sequence of `create` calls, given the millisecond
timestamps each call observes, in issuance order. -/
def capsuleIds (ts : List Nat) : List String := ts.map capsuleIdOf

/-- Capsule metadata fields that influence `CapsuleRegistry.execute`. -/
structure CapMeta where
  clock_offset_sec : Int
  env_whitelist : List String
deriving DecidableEq

/-- The result shape of `execute` (usage is a dict; the error path returns an
empty one). -/
structure ExecResult where
  exit_code : Int
  stdout : String
  stderr : String
  usage : Dict Int
  touched_read : List String
  touched_written : List String
deriving DecidableEq

/-- `capsule.py` lines 203-210: the record returned when the capsule is
unknown. -/
def notFoundResult (cid : String) : ExecResult :=
  { exit_code := -1
    stdout := ""
    stderr := "Capsule " ++ cid ++ " not found"
    usage := []
    touched_read := []
    touched_written := [] }

/-- `CapsuleRegistry.get` (capsule.py 116-144): in-memory entry first,
otherwise load from the on-disk `metadata.json` (modelled as the `disk`
dict). Caching the loaded entry does not affect the returned value and is
not modelled. -/
def registryGet (mem disk : Dict CapMeta) (cid : String) : Option CapMeta :=
  (dlookup mem cid).orElse (fun _ => dlookup disk cid)

/-- `CapsuleRegistry.execute` (capsule.py 182-233): resolve the capsule; when
absent return `notFoundResult`, otherwise build the whitelist/clock-offset
env argument and delegate to the CEL (`celExec` abstracts
`cel.execute`). -/
def registryExecute (host : Dict String) (mem disk : Dict CapMeta)
    (celExec : CapMeta → Dict String → ExecResult) (cid : String) :
    ExecResult :=
  match registryGet mem disk cid with
  | none => notFoundResult cid
  | some m => celExec m (capsuleEnvArg host m.env_whitelist m.clock_offset_sec)

/-! ## cwd resolution (cel/linux.py 133-142, cel/portable.py 74-82) -/

/-- A `pathlib` pure path: absolute flag plus components. As in `pathlib`,
`.` components and empty segments are already removed, while `..` components
are kept verbatim. -/
structure PyPath where
  absolute : Bool
  parts : List String
deriving DecidableEq

/-- Working-directory resolution in `execute`: a null cwd is the mount root;
an absolute cwd is stripped of its anchor (`cwd.relative_to(cwd.anchor)`) and
joined under the mount root; a relative cwd is joined under the mount root.
Both branches concatenate the component lists. -/
def resolveWorkCwd (mountParts : List String) (cwd : Option PyPath) :
    List String :=
  match cwd with
  | none => mountParts
  | some p =>
    if p.absolute then mountParts ++ p.parts else mountParts ++ p.parts

/-- POSIX resolution of `..` components, as the operating system performs it
on the resolved path (the parent of the root is the root; no symlinks). -/
def normParts (l : List String) : List String :=
  l.foldl (fun acc c => if c = ".." then acc.dropLast else acc ++ [c]) []

/-! ## Per-execution change detection (cel/portable.py 146-189,
cel/windows.py 280-317) -/

/-- `PortableCEL._detect_changes` (portable.py 162-189): a path is written if
absent from the before-snapshot or its mtime differs; the read list is every
pre-existing path ("we approximate as all existing files"), with no cap.
Snapshots map relative paths to mtimes. -/
def portableDetectChanges (before after : Dict Int) :
    List String × List String :=
  let written := (after.filter fun pm => dlookup before pm.1 ≠ some pm.2).map
    Prod.fst
  let read := before.map Prod.fst
  (read, written)

/-- `WindowsCEL._detect_changes` (windows.py 280-317): new or
mtime-changed paths are written, unchanged ones read, vanished ones appear as
`[deleted] <path>` entries in written, and the read list is truncated to 100
entries. -/
def windowsDetectChanges (before after : Dict Int) :
    List String × List String :=
  let written := (after.filter fun pm => dlookup before pm.1 ≠ some pm.2).map
    Prod.fst
  let read := (after.filter fun pm => dlookup before pm.1 = some pm.2).map
    Prod.fst
  let deleted := (before.filter fun pm => dlookup after pm.1 = none).map
    fun pm => "[deleted] " ++ pm.1
  (read.take 100, written ++ deleted)

/-- A before-snapshot of 101 pre-existing files, for exercising the read-list
cap. -/
def manyFilesSnapshot : Dict Int :=
  (List.range 101).map fun i => ("f" ++ decStr i, (0 : Int))

/-! ## Policy engine (policy/engine.py) -/

/-- `PolicyRule` (engine.py 10-18). -/
structure PolicyRule where
  name : String := "baseline"
  max_rss_mb : Option Int := none
  max_cpu_ms : Option Int := none
  deny_paths : List String := []
  require_tests : List String := []
  require_replay_ok : Bool := true
deriving DecidableEq

/-- `PolicyReport` (engine.py 21-32), with its Python default field values. -/
structure PolicyReport where
  passed : Bool := false
  tests_ok : Bool := false
  replay_ok : Bool := false
  resource_ok : Bool := true
  paths_ok : Bool := true
  deny_paths : List String := []
  resource_violations : List String := []
  test_failures : List String := []
  details : String := ""
deriving DecidableEq

/-- The two built-in policies installed by `PolicyEngine.__init__`
(engine.py 38-55). -/
def defaultPolicies : Dict PolicyRule :=
  [("baseline",
    { name := "baseline"
      max_rss_mb := some 2048
      max_cpu_ms := none
      deny_paths := ["~/.ssh/*", "~/.aws/*", "/etc/passwd"]
      require_tests := []
      require_replay_ok := false }),
   ("strict",
    { name := "strict"
      max_rss_mb := some 1024
      max_cpu_ms := some 60000
      deny_paths := ["~/.ssh/*", "~/.aws/*", "/etc/*", "~/.config/*"]
      require_tests := ["uv run pytest -q"]
      require_replay_ok := true })]

/-- Python truthiness filter on an optional integer: the comprehension guard
`if p.max_rss_mb` keeps a value only when it is present and non-zero. -/
def truthyInt (o : Option Int) : Option Int :=
  match o with
  | some v => if v ≠ 0 then some v else none
  | none => none

/-- Python `min` over a list: `None` on empty input (the call sites guard). -/
def pyMin : List Int → Option Int
  | [] => none
  | x :: xs => some (xs.foldl min x)

/-- Python `sep.join(parts)`. -/
def joinStr (sep : String) : List String → String
  | [] => ""
  | x :: xs => xs.foldl (fun a b => a ++ sep ++ b) x

/-- Union of several lists into one duplicate-free list. Models the Python
`set.update` accumulation in `_merge_policies`; Python set iteration order is
unspecified, so properties of these fields are stated setwise. -/
def setUnionFold (ls : List (List String)) : List String :=
  ls.foldl
    (fun acc l => l.foldl (fun a x => if x ∈ a then a else a ++ [x]) acc) []

/-- `engine.py` 188-189: resolve names against the policy table, dropping the
unknown ones. -/
def resolvePolicies (table : Dict PolicyRule) (names : List String) :
    List PolicyRule :=
  names.filterMap (dlookup table)

/-- `PolicyEngine._merge_policies` (engine.py 179-219): `None` when nothing
resolves, otherwise minimum of the truthy numeric limits, set union of
`deny_paths` and `require_tests`, and disjunction of `require_replay_ok`;
the merged name joins the requested names (unknown ones included) with
`+`. -/
def mergePolicies (table : Dict PolicyRule) (names : List String) :
    Option PolicyRule :=
  let policies := resolvePolicies table names
  if policies.isEmpty then none
  else
    some
      { name := joinStr "+" names
        max_rss_mb := pyMin (policies.filterMap fun p => truthyInt p.max_rss_mb)
        max_cpu_ms := pyMin (policies.filterMap fun p => truthyInt p.max_cpu_ms)
        deny_paths := setUnionFold (policies.map PolicyRule.deny_paths)
        require_tests := setUnionFold (policies.map PolicyRule.require_tests)
        require_replay_ok := policies.any PolicyRule.require_replay_ok }

/-- The minimum over all *defined* numeric limit values, as claim C4 words it
(a defined value of 0 participates). Spec-side definition, for comparison
with the merge in the code. -/
def specMinDefined (limits : List (Option Int)) : Option Int :=
  pyMin (limits.filterMap id)

/-! ### fnmatch model

Model of the CPython `fnmatch.fnmatch` (stdlib) used by
`PolicyEngine._match_path`: `*`, `?` and `[...]` classes (with `!` negation,
a leading `]` literal, and `a-b` ranges); `os.path.normcase` is the identity
on POSIX. The matcher is fuel-based; `pattern.length + text.length + 1` fuel
always suffices since every step consumes at least one pattern or text
character. -/

/-- Parse the items of a `[...]` class after the optional `!`: returns the
(lo, hi) ranges and the rest of the pattern, or `none` when the class is
unterminated (the `[` is then a literal). -/
def parseClassItems : List Char → Bool → List (Char × Char) →
    Option (List (Char × Char) × List Char)
  | [], _, _ => none
  | ']' :: rest, first, acc =>
    if first then parseClassItems rest false (acc ++ [(']', ']')])
    else some (acc, rest)
  | a :: '-' :: b :: rest, _, acc =>
    if b = ']' then some (acc ++ [(a, a), ('-', '-')], rest)
    else parseClassItems rest false (acc ++ [(a, b)])
  | a :: rest, _, acc => parseClassItems rest false (acc ++ [(a, a)])

/-- Split the optional leading `!` of a class body. -/
def parseClass (p : List Char) :
    Option (Bool × List (Char × Char) × List Char) :=
  match p with
  | '!' :: rest =>
    match parseClassItems rest true [] with
    | some (items, rest') => some (true, items, rest')
    | none => none
  | _ =>
    match parseClassItems p true [] with
    | some (items, rest') => some (false, items, rest')
    | none => none

/-- Membership of a character in a parsed class. -/
def classMatch (neg : Bool) (items : List (Char × Char)) (c : Char) : Bool :=
  let hit := items.any fun ab => ab.1 ≤ c && c ≤ ab.2
  if neg then !hit else hit

/-- The fuel-based glob matcher over pattern and text character lists. -/
def fnAux : Nat → List Char → List Char → Bool
  | 0, _, _ => false
  | fuel + 1, pat, s =>
    match pat, s with
    | [], [] => true
    | [], _ :: _ => false
    | '*' :: p, s =>
      fnAux fuel p s ||
        (match s with
         | [] => false
         | _ :: s' => fnAux fuel ('*' :: p) s')
    | '?' :: p, s =>
      (match s with
       | [] => false
       | _ :: s' => fnAux fuel p s')
    | '[' :: p, s =>
      (match parseClass p with
       | some (neg, items, rest) =>
         (match s with
          | [] => false
          | c :: s' => classMatch neg items c && fnAux fuel rest s')
       | none =>
         (match s with
          | [] => false
          | c :: s' => (c = '[') && fnAux fuel p s'))
    | c :: p, s =>
      (match s with
       | [] => false
       | c' :: s' => (c = c') && fnAux fuel p s')

/-- `fnmatch.fnmatch(name, pattern)` on POSIX. -/
def fnmatchM (name pattern : String) : Bool :=
  fnAux (pattern.data.length + name.data.length + 1) pattern.data name.data

/-- `PolicyEngine._match_path` (engine.py 221-235): expand a leading `~/` to
the invoking user's home, then glob-match the path string. -/
def matchPath (home : String) (path : String) (pattern : String) : Bool :=
  let patData :=
    match pattern.data with
    | '~' :: '/' :: rest => home.data ++ '/' :: rest
    | l => l
  fnAux (patData.length + path.data.length + 1) patData path.data

/-! ### Validation -/

/-- The resource-usage counters consulted by `validate`
(`usage.get("cpu_ms", 0)`, `usage.get("rss_max_kb", 0)`). -/
structure Usage where
  cpu_ms : Int := 0
  rss_max_kb : Int := 0
deriving DecidableEq

/-- Python truthiness of an optional string (`None` and `""` are falsy). -/
def pyTruthyStr (o : Option String) : Bool :=
  match o with
  | some s => !(s == "")
  | none => false

/-- Python `repr` of a list of strings, for the no-policies message. -/
def pyListRepr (names : List String) : String :=
  "[" ++ joinStr ", " (names.map fun n => "\x27" ++ n ++ "\x27") ++ "]"

/-- Rendering of `f"{kb/1024:.1f}"` for a non-negative kb count: the binary
float `kb/1024` is exact, and the one-decimal rounding is modelled half-up
(the half-even corner differs only in the violation message text, which no
claim consults). -/
def mbStr (kb : Int) : String :=
  let tenths := ((kb * 10 + 512) / 1024).natAbs
  decStr (tenths / 10) ++ "." ++ decStr (tenths % 10)

/-- `PolicyEngine.validate` (engine.py 76-177). `runTest` abstracts
`_run_test` (engine.py 237-257, a subprocess call); `home` is the invoking
user's home directory for `~/` expansion. The resource comparison
`usage.get("rss_max_kb", 0) / 1024 > max_rss_mb` is integer-exact
(`kb/1024` is an exact binary float), embedded as `kb > limit * 1024`. -/
def validate (table : Dict PolicyRule) (home : String)
    (runTest : String → Bool) (policyNames : List String)
    (changedPaths : List String) (usage : Usage)
    (replayHash expectedHash : Option String) (workspace : Option String) :
    PolicyReport :=
  match mergePolicies table policyNames with
  | none => { details := "No valid policies found in " ++ pyListRepr policyNames }
  | some merged =>
    let denyViolations := changedPaths.filter fun p =>
      merged.deny_paths.any fun pat => matchPath home p pat
    let paths_ok := denyViolations.isEmpty
    let rssViol : List String :=
      match truthyInt merged.max_rss_mb with
      | some limit =>
        if usage.rss_max_kb > limit * 1024 then
          ["RSS " ++ mbStr usage.rss_max_kb ++ "MB exceeds limit "
            ++ intStr limit ++ "MB"]
        else []
      | none => []
    let cpuViol : List String :=
      match truthyInt merged.max_cpu_ms with
      | some limit =>
        if usage.cpu_ms > limit then
          ["CPU " ++ intStr usage.cpu_ms ++ "ms exceeds limit "
            ++ intStr limit ++ "ms"]
        else []
      | none => []
    let resource_violations := rssViol ++ cpuViol
    let resource_ok := resource_violations.isEmpty
    let replay_ok :=
      if merged.require_replay_ok then
        if pyTruthyStr replayHash && pyTruthyStr expectedHash then
          replayHash == expectedHash
        else false
      else true
    let test_failures :=
      if !merged.require_tests.isEmpty && workspace.isSome then
        merged.require_tests.filter fun c => !(runTest c)
      else []
    let tests_ok := test_failures.isEmpty || merged.require_tests.isEmpty
    let passed := paths_ok && resource_ok && replay_ok && tests_ok
    let detailParts :=
      (if !paths_ok then
        ["Denied paths: " ++ joinStr ", " denyViolations] else []) ++
      (if !resource_ok then
        ["Resource violations: " ++ joinStr "; " resource_violations]
        else []) ++
      (if !replay_ok then ["Replay hash mismatch"] else []) ++
      (if !tests_ok then
        ["Test failures: " ++ joinStr ", " test_failures] else [])
    { passed := passed
      tests_ok := tests_ok
      replay_ok := replay_ok
      resource_ok := resource_ok
      paths_ok := paths_ok
      deny_paths := denyViolations
      resource_violations := resource_violations
      test_failures := test_failures
      details :=
        if detailParts.isEmpty then "All checks passed"
        else joinStr "; " detailParts }

/-- The test commands `validate` actually runs: the loop at engine.py 147-151
is entered only when `require_tests` is non-empty and a workspace was
supplied. -/
def testsExecuted (merged : PolicyRule) (workspace : Option String) :
    List String :=
  if !merged.require_tests.isEmpty && workspace.isSome then
    merged.require_tests
  else []

/-- Concrete policy table exhibiting the truthiness filter on numeric limits:
rule `a` defines a limit of 0, rule `b` a limit of 5. -/
def c4Table : Dict PolicyRule :=
  [("a", { name := "a", max_rss_mb := some 0, require_replay_ok := false }),
   ("b", { name := "b", max_rss_mb := some 5, require_replay_ok := false })]

/-- The merged rule for `["baseline", "strict"]` over the default table. -/
def mergedBaselineStrict : PolicyRule :=
  { name := "baseline+strict"
    max_rss_mb := some 1024
    max_cpu_ms := some 60000
    deny_paths :=
      ["~/.ssh/*", "~/.aws/*", "/etc/passwd", "/etc/*", "~/.config/*"]
    require_tests := ["uv run pytest -q"]
    require_replay_ok := true }

/-- The merged rule for `["strict"]` over the default table. -/
def mergedStrict : PolicyRule :=
  { name := "strict"
    max_rss_mb := some 1024
    max_cpu_ms := some 60000
    deny_paths := ["~/.ssh/*", "~/.aws/*", "/etc/*", "~/.config/*"]
    require_tests := ["uv run pytest -q"]
    require_replay_ok := true }

/-! ## Witness engine (tools/witness.py)

The witness directory's two JSON files are rendered exactly as
`json.dump(..., indent=2)` produces them; `created_at = time.time()` enters
as the pre-rendered float repr `createdAtRepr`, and the millisecond
timestamp for the id as `tsMs`. -/

/-- Hex digit (lowercase), as Python produces. -/
def u4 (n : Nat) : String :=
  ⟨[Nat.digitChar (n / 4096 % 16), Nat.digitChar (n / 256 % 16),
    Nat.digitChar (n / 16 % 16), Nat.digitChar (n % 16)]⟩

/-- JSON escaping of one character per CPython `json` with `ensure_ascii`:
printable ASCII passes through, the two metacharacters and the named control
characters get two-character escapes, everything else `\uXXXX` (codepoints
above 0xFFFF would use surrogate pairs; no claim input reaches them). -/
def jsonEscapeChar (c : Char) : List Char :=
  if c = '"' then ['\\', '"']
  else if c = '\\' then ['\\', '\\']
  else if c = '\n' then ['\\', 'n']
  else if c = '\t' then ['\\', 't']
  else if c = '\r' then ['\\', 'r']
  else if c.toNat = 8 then ['\\', 'b']
  else if c.toNat = 12 then ['\\', 'f']
  else if c.toNat < 32 ∨ c.toNat > 126 then '\\' :: 'u' :: (u4 c.toNat).data
  else [c]

/-- JSON string literal. -/
def jsonStr (s : String) : String :=
  "\"" ++ ⟨(s.data.map jsonEscapeChar).flatten⟩ ++ "\""

/-- JSON boolean. -/
def jsonBool (b : Bool) : String := if b then "true" else "false"

/-- The `changes` array as rendered inside the manifest at `indent=2`. -/
def changesJson (changes : List String) : String :=
  match changes with
  | [] => "[]"
  | _ => "[\n    " ++ joinStr ",\n    " (changes.map jsonStr) ++ "\n  ]"

/-- `manifest.json` bytes (witness.py 67-74, 100-102): the manifest dict in
insertion order, dumped with `indent=2`. -/
def manifestJson (wid cid createdAtRepr : String) (changes : List String)
    (compress : String) (includeBlobs : Bool) : String :=
  "\x7b\n  \"witness_id\": " ++ jsonStr wid ++
  ",\n  \"capsule_id\": " ++ jsonStr cid ++
  ",\n  \"created_at\": " ++ createdAtRepr ++
  ",\n  \"changes\": " ++ changesJson changes ++
  ",\n  \"compress\": " ++ jsonStr compress ++
  ",\n  \"include_blobs\": " ++ jsonBool includeBlobs ++ "\n\x7d"

/-- `hashes.json` bytes (witness.py 96-98): the path→hash dict dumped with
`indent=2`. -/
def hashesJson (hashes : Dict String) : String :=
  match hashes with
  | [] => "\x7b\x7d"
  | _ =>
    "\x7b\n  " ++
    joinStr ",\n  " (hashes.map fun kv => jsonStr kv.1 ++ ": " ++ jsonStr kv.2)
    ++ "\n\x7d"

/-- Model of `hash_bytes` (util/hashing.py 26-36, external `blake3` library):
a deterministic, injective tagged hex rendering of the input string's
characters. Only determinism and collision-freeness of the digest are used. -/
def hashStringM (s : String) : String :=
  "blake3:" ++ ⟨(s.data.map fun c => (u4 c.toNat).data).flatten⟩

/-- Model of `hash_file` (util/hashing.py 10-23) on a file's bytes
(`0 ≤ b < 256`), with the same idealisation as `hashStringM`. -/
def hashBytesM (bytes : List Nat) : String :=
  "blake3:" ++ ⟨(bytes.map fun b => (u4 b).data).flatten⟩

/-- The two JSON files of a witness directory. -/
structure WitnessFiles where
  manifestBytes : String
  hashesBytes : String
deriving DecidableEq

/-- `WitnessEngine` state: the on-disk witness directories and the in-memory
`witness_id → root_hash` metadata (`self.witnesses`). -/
structure WitnessState where
  storage : Dict WitnessFiles
  witnesses : Dict String
deriving DecidableEq

/-- The fields of `create`'s return value that later calls consult (`path`
and `size_bytes` are returned too but no claim reads them). -/
structure WitnessCreateResult where
  witness_id : String
  root_hash : String
deriving DecidableEq

/-- `WitnessEngine._calculate_root_hash` (witness.py 177-200): BLAKE3 over
the bytes of `manifest.json` followed by the bytes of `hashes.json`. -/
def witnessRootHash (files : WitnessFiles) : String :=
  hashStringM (files.manifestBytes ++ files.hashesBytes)

/-- `WitnessEngine.create` (witness.py 38-133): allocate `wit_<ms>`, hash
every change that is a regular file under the mount (`mount` maps the
relative paths of regular files to their bytes), write `hashes.json` and
`manifest.json`, compute the root hash over their bytes, and record the
metadata. Blob copies do not enter the root hash; `_compress_witness`
creates no archive and returns `False`, so compression never alters the
directory. -/
def witnessCreate (st : WitnessState) (cid : String)
    (mount : Dict (List Nat)) (changes : List String) (compress : String)
    (includeBlobs : Bool) (tsMs : Nat) (createdAtRepr : String) :
    WitnessState × WitnessCreateResult :=
  let wid := "wit_" ++ decStr tsMs
  let hashes := changes.foldl
    (fun d c =>
      match dlookup mount c with
      | some content => dinsert d c (hashBytesM content)
      | none => d)
    []
  let files : WitnessFiles :=
    ⟨manifestJson wid cid createdAtRepr changes compress includeBlobs,
     hashesJson hashes⟩
  let root := witnessRootHash files
  ({ storage := dinsert st.storage wid files
     witnesses := dinsert st.witnesses wid root },
   ⟨wid, root⟩)

/-- The fields of `replay`'s return value that claims consult (`metrics` is
the constant `{cpu_ms: 0, rss_max_kb: 0}` placeholder). -/
structure ReplayResult where
  replay_ok : Bool
  root_hash : String
deriving DecidableEq

/-- `WitnessEngine.replay` (witness.py 135-175): missing directory fails;
otherwise recompute the root hash from the directory's files and compare
with the stored metadata when that is known and truthy. (No `.tar.zst`
archive ever exists, so the decompress branch is dead.) -/
def witnessReplay (st : WitnessState) (wid : String) : ReplayResult :=
  match dlookup st.storage wid with
  | none => ⟨false, ""⟩
  | some files =>
    let root := witnessRootHash files
    match dlookup st.witnesses wid with
    | some expected =>
      if expected ≠ "" then ⟨root == expected, root⟩ else ⟨true, root⟩
    | none => ⟨true, root⟩

/-! ## Promotion (tools/promote.py) -/

/-- `PromoteResult` (promote.py 11-17). -/
structure PromoteResult where
  promoted : Bool
  applied : List String
  policy_report : PolicyReport
  error : String
deriving DecidableEq

/-- The apply loop of `promote` (promote.py 99-127) over the model
filesystem: changes missing from the mount are skipped, the rest are
installed into the target (the temp-file-then-rename dance is atomic
installation; the model filesystem has no I/O errors, so the abort branch
is unreachable). -/
def applyChanges (mountFS : Dict (List Nat)) (targetFS : Dict (List Nat))
    (changes : List String) : Dict (List Nat) × List String :=
  changes.foldl
    (fun acc c =>
      match dlookup mountFS c with
      | none => acc
      | some content => (dinsert acc.1 c content, acc.2 ++ [c]))
    (targetFS, [])

/-- `PromoteEngine.promote` (promote.py 31-142): validate (with the target
directory as the test workspace), refuse on a failing report, report-only on
`dry_run`, otherwise apply the changes. Returns the new target filesystem
and the result. -/
def promote (table : Dict PolicyRule) (home : String)
    (runTest : String → Bool) (mountFS targetFS : Dict (List Nat))
    (changes : List String) (policies : List String) (usage : Usage)
    (replayHash expectedHash : Option String) (dryRun : Bool) :
    Dict (List Nat) × PromoteResult :=
  let report := validate table home runTest policies changes usage
    replayHash expectedHash (some ("target"))
  if !report.passed then
    (targetFS,
     ⟨false, [], report, "Policy validation failed: " ++ report.details⟩)
  else if dryRun then
    (targetFS, ⟨false, changes, report, "Dry run - no changes applied"⟩)
  else
    let applied := applyChanges mountFS targetFS changes
    (applied.1, ⟨true, applied.2, report, ""⟩)

/-! # Theorems -/

theorem digitVal_digitChar {n : Nat} (h : n < 10) :
    digitVal (Nat.digitChar n) = n := by
  interval_cases n <;> rfl

theorem decVal_append (l : List Char) (c : Char) :
    decVal (l ++ [c]) = 10 * decVal l + digitVal c := by
  simp [decVal]

theorem decVal_decAux : ∀ fuel n, n ≤ fuel → decVal (decAux fuel n) = n := by
  intro fuel
  induction fuel with
  | zero =>
    intro n hn
    have h0 : n = 0 := Nat.le_zero.mp hn
    subst h0
    rfl
  | succ fuel ih =>
    intro n hn
    by_cases h : n < 10
    · simp only [decAux, if_pos h, decVal, List.foldl]
      have := digitVal_digitChar h
      simpa [decVal] using this
    · have hdiv : n / 10 ≤ fuel := by
        have h1 : n / 10 < n := Nat.div_lt_self (by omega) (by omega)
        omega
      simp only [decAux, if_neg h]
      rw [decVal_append, ih _ hdiv, digitVal_digitChar (Nat.mod_lt _ (by omega))]
      omega

theorem decVal_decStr (n : Nat) : decVal (decStr n).data = n :=
  decVal_decAux n n (Nat.le_refl n)

theorem decStr_injective : Function.Injective decStr := by
  intro a b h
  have hdata : (decStr a).data = (decStr b).data := by rw [h]
  have := decVal_decStr a
  rw [hdata, decVal_decStr b] at this
  omega

@[simp] theorem dlookup_nil {α : Type} (k : String) :
    dlookup ([] : Dict α) k = none := rfl

@[simp] theorem dlookup_dinsert_self {α : Type} (d : Dict α) (k : String) (v : α) :
    dlookup (dinsert d k v) k = some v := by
  induction d with
  | nil => simp [dinsert, dlookup]
  | cons hd tl ih =>
    obtain ⟨k0, v0⟩ := hd
    by_cases h : k0 = k
    · simp [dinsert, h, dlookup]
    · simp [dinsert, h, dlookup, ih]

theorem dlookup_dinsert_ne {α : Type} (d : Dict α) {k k' : String} (v : α)
    (h : k' ≠ k) : dlookup (dinsert d k v) k' = dlookup d k' := by
  have hne : k ≠ k' := Ne.symm h
  induction d with
  | nil => simp [dinsert, dlookup, hne]
  | cons hd tl ih =>
    obtain ⟨k0, v0⟩ := hd
    by_cases h0 : k0 = k
    · subst h0
      simp [dinsert, dlookup, hne]
    · simp only [dinsert, if_neg h0, dlookup]
      by_cases h1 : k0 = k'
      · simp [h1]
      · simp [h1, ih]

theorem dkeys_dinsert_mem {α : Type} (d : Dict α) (k : String) (v : α) :
    ∀ x, x ∈ dkeys (dinsert d k v) → x = k ∨ x ∈ dkeys d := by
  induction d with
  | nil => intro x hx; simp [dinsert, dkeys] at hx; exact Or.inl hx
  | cons hd tl ih =>
    obtain ⟨k0, v0⟩ := hd
    intro x hx
    by_cases h0 : k0 = k
    · simp [dinsert, h0, dkeys] at hx
      rcases hx with h | h
      · exact Or.inl h
      · exact Or.inr (by simp [dkeys, h])
    · simp only [dinsert, if_neg h0, dkeys, List.map_cons, List.mem_cons] at hx
      rcases hx with h | h
      · exact Or.inr (by simp [dkeys, h])
      · rcases ih x h with h' | h'
        · exact Or.inl h'
        · exact Or.inr (by simp [dkeys] at h' ⊢; exact Or.inr h')

theorem nodupKeys_dinsert {α : Type} (d : Dict α) (k : String) (v : α)
    (h : NodupKeys d) : NodupKeys (dinsert d k v) := by
  induction d with
  | nil => simp [NodupKeys, dinsert, dkeys]
  | cons hd tl ih =>
    obtain ⟨k0, v0⟩ := hd
    simp only [NodupKeys, dkeys, List.map_cons, List.nodup_cons] at h
    by_cases h0 : k0 = k
    · subst h0
      simpa [NodupKeys, dinsert, dkeys, List.nodup_cons] using h
    · have htl := ih h.2
      simp only [NodupKeys, dinsert, if_neg h0, dkeys, List.map_cons,
        List.nodup_cons]
      refine ⟨fun hmem => ?_, htl⟩
      rcases dkeys_dinsert_mem tl k v k0 hmem with h' | h'
      · exact h0 h'
      · exact h.1 (by simpa [dkeys] using h')

theorem mem_dkeys_of_dlookup {α : Type} {d : Dict α} {k : String} {v : α}
    (h : dlookup d k = some v) : k ∈ dkeys d := by
  induction d with
  | nil => simp [dlookup] at h
  | cons hd tl ih =>
    obtain ⟨k0, v0⟩ := hd
    by_cases h0 : k0 = k
    · simp [dkeys, h0]
    · simp only [dlookup, if_neg h0] at h
      simp [dkeys] at ih ⊢
      exact Or.inr (ih h)

theorem dlookup_eq_none_of_not_mem {α : Type} {d : Dict α} {k : String}
    (h : k ∉ dkeys d) : dlookup d k = none := by
  cases hl : dlookup d k with
  | none => rfl
  | some v => exact absurd (mem_dkeys_of_dlookup hl) h

theorem dlookup_dupdate {α : Type} (e : Dict α) (d : Dict α) (k : String)
    (he : NodupKeys e) :
    dlookup (dupdate d e) k = (dlookup e k).orElse (fun _ => dlookup d k) := by
  induction e generalizing d with
  | nil => simp [dupdate, dlookup]
  | cons hd tl ih =>
    obtain ⟨k0, v0⟩ := hd
    simp only [NodupKeys, dkeys, List.map_cons, List.nodup_cons] at he
    have step : dupdate d ((k0, v0) :: tl) = dupdate (dinsert d k0 v0) tl := by
      simp [dupdate]
    rw [step, ih (dinsert d k0 v0) he.2]
    by_cases h : k0 = k
    · subst h
      have hnone : dlookup tl k0 = none :=
        dlookup_eq_none_of_not_mem (by simpa [dkeys] using he.1)
      simp [hnone, dlookup, Option.orElse]
    · have hne : k ≠ k0 := Ne.symm h
      rw [dlookup_dinsert_ne d v0 hne]
      simp [dlookup, h]

theorem whitelistEnv_sub (host : Dict String) (wl : List String) :
    ∀ k v, dlookup (whitelistEnv host wl) k = some v →
      dlookup host k = some v := by
  have main : ∀ (l : List String) (acc : Dict String),
      (∀ k v, dlookup acc k = some v → dlookup host k = some v) →
      ∀ k v,
        dlookup (l.foldl
          (fun acc w =>
            match dlookup host w with
            | some x => dinsert acc w x
            | none => acc) acc) k = some v →
        dlookup host k = some v := by
    intro l
    induction l with
    | nil => intro acc hacc k v h; exact hacc k v h
    | cons w ws ih =>
      intro acc hacc k v h
      simp only [List.foldl_cons] at h
      refine ih _ ?_ k v h
      intro k' v' h'
      cases hw : dlookup host w with
      | none => rw [hw] at h'; exact hacc k' v' h'
      | some x =>
        rw [hw] at h'
        by_cases hk : k' = w
        · subst hk
          rw [dlookup_dinsert_self] at h'
          rw [hw, ← h']
        · rw [dlookup_dinsert_ne _ _ hk] at h'
          exact hacc k' v' h'
  intro k v h
  exact main wl [] (by intro k v h; simp [dlookup] at h) k v h

theorem nodupKeys_whitelistEnv (host : Dict String) (wl : List String) :
    NodupKeys (whitelistEnv host wl) := by
  have main : ∀ (l : List String) (acc : Dict String), NodupKeys acc →
      NodupKeys (l.foldl
        (fun acc w =>
          match dlookup host w with
          | some x => dinsert acc w x
          | none => acc) acc) := by
    intro l
    induction l with
    | nil => intro acc h; exact h
    | cons w ws ih =>
      intro acc h
      simp only [List.foldl_cons]
      refine ih _ ?_
      cases hw : dlookup host w with
      | none => exact h
      | some x => exact nodupKeys_dinsert acc w x h
  exact main wl [] (by simp [NodupKeys, dkeys])

theorem nodupKeys_capsuleEnvArg (host : Dict String) (wl : List String)
    (off : Int) : NodupKeys (capsuleEnvArg host wl off) := by
  unfold capsuleEnvArg
  by_cases h : off ≠ 0
  · simp only [if_pos h]
    exact nodupKeys_dinsert _ _ _ (nodupKeys_whitelistEnv host wl)
  · simp only [if_neg h]
    exact nodupKeys_whitelistEnv host wl

theorem capsuleIdOf_data (t : Nat) :
    (capsuleIdOf t).data = 'c' :: 'a' :: 'p' :: '_' :: (decStr t).data := rfl

theorem capsuleIdOf_injective : Function.Injective capsuleIdOf := by
  intro a b h
  have hdata : (capsuleIdOf a).data = (capsuleIdOf b).data := by rw [h]
  rw [capsuleIdOf_data, capsuleIdOf_data] at hdata
  have : (decStr a).data = (decStr b).data := by
    simpa using hdata
  have hstr : decStr a = decStr b := by
    cases hda : decStr a with
    | mk la =>
      cases hdb : decStr b with
      | mk lb =>
        rw [hda, hdb] at this
        simp at this
        rw [this]
  exact decStr_injective hstr

/-- C1 (counterexample): with host environment `{SECRET ↦ x}`, an empty
whitelist, no caller env and zero clock offset, the child environment still
contains `SECRET` (the CEL starts from the full host environment), while the
claim's restricted composition would drop it. -/
theorem c1_counterexample :
    dlookup (capsuleChildEnv [("SECRET", "x")] [] 0) ("SECRET") = some ("x") ∧
    dlookup (specRestrictedChildEnv [("SECRET", "x")] [] [] 0) ("SECRET")
      = none ∧
    ("SECRET") ∉ ([] : List String) := by
  decide

/-- C1 (amended): the environment passed to the child process is the full host
environment, overlaid with the whitelist projection of the host (which never
changes any binding) and with `CCW_CLOCK_OFFSET` injected exactly when
`clock_offset_sec ≠ 0`; in particular a host variable outside the whitelist
still appears in the child environment. -/
theorem c1_child_env_full_host (host : Dict String) (wl : List String)
    (off : Int) (k : String) :
    dlookup (capsuleChildEnv host wl off) k =
      if off ≠ 0 ∧ k = "CCW_CLOCK_OFFSET" then some (intStr off)
      else dlookup host k := by
  unfold capsuleChildEnv celExecEnv
  rw [dlookup_dupdate _ _ _ (nodupKeys_capsuleEnvArg host wl off)]
  unfold capsuleEnvArg
  by_cases hoff : off ≠ 0
  · simp only [if_pos hoff]
    by_cases hk : k = "CCW_CLOCK_OFFSET"
    · subst hk
      rw [dlookup_dinsert_self]
      simp [hoff, Option.orElse]
    · rw [dlookup_dinsert_ne _ _ hk]
      cases hw : dlookup (whitelistEnv host wl) k with
      | none => simp [Option.orElse, hk, hw]
      | some v =>
        have hhost := whitelistEnv_sub host wl k v hw
        simp [Option.orElse, hk, hhost]
  · simp only [if_neg hoff]
    have hoff0 : ¬ (off ≠ 0 ∧ k = "CCW_CLOCK_OFFSET") := fun hc => hoff hc.1
    cases hw : dlookup (whitelistEnv host wl) k with
    | none => simp [Option.orElse, hoff0, hw]
    | some v =>
      have hhost := whitelistEnv_sub host wl k v hw
      simp [Option.orElse, hoff0, hhost]

/-- C7 (counterexample): two distinct `create` calls (positions 0 and 1 of the
trace) that observe the same millisecond timestamp return the same
`capsule_id`, so the ids are not distinct. -/
theorem c7_counterexample :
    (0 : Nat) ≠ 1 ∧
    (capsuleIds [100, 100]).getD 0 ("") = (capsuleIds [100, 100]).getD 1 ("")
    := by
  decide

/-- C7 (amended): provided the two `create` calls observe distinct (strictly
increasing) millisecond timestamps, the returned ids are distinct, each is
prefixed `cap_`, and the numeric timestamp embedded after the prefix is
strictly greater for the id assigned later. (With equal timestamps the ids
collide, and plain string comparison does not respect issuance order across
digit-length boundaries.) -/
theorem c7_ids_distinct_and_ordered (t1 t2 : Nat) (h : t1 < t2) :
    capsuleIdOf t1 ≠ capsuleIdOf t2 ∧
    "cap_".data <+: (capsuleIdOf t1).data ∧
    "cap_".data <+: (capsuleIdOf t2).data ∧
    decVal ((capsuleIdOf t1).data.drop 4) <
      decVal ((capsuleIdOf t2).data.drop 4) := by
  refine ⟨?_, ?_, ?_, ?_⟩
  · intro he
    exact absurd (capsuleIdOf_injective he) (Nat.ne_of_lt h)
  · exact ⟨(decStr t1).data, rfl⟩
  · exact ⟨(decStr t2).data, rfl⟩
  · have e1 : (capsuleIdOf t1).data.drop 4 = (decStr t1).data := by
      rw [capsuleIdOf_data]
      rfl
    have e2 : (capsuleIdOf t2).data.drop 4 = (decStr t2).data := by
      rw [capsuleIdOf_data]
      rfl
    rw [e1, e2, decVal_decStr, decVal_decStr]
    exact h

/-- C7 witness: the amended statement at the concrete timestamps 100 < 101. -/
theorem c7_ids_witness :
    capsuleIdOf 100 ≠ capsuleIdOf 101 ∧
    "cap_".data <+: (capsuleIdOf 100).data ∧
    "cap_".data <+: (capsuleIdOf 101).data ∧
    decVal ((capsuleIdOf 100).data.drop 4) <
      decVal ((capsuleIdOf 101).data.drop 4) :=
  c7_ids_distinct_and_ordered 100 101 (by decide)

/-- C10: `CapsuleRegistry.execute` on a capsule id with no in-memory entry and
no metadata on disk does not fail: it returns exit code −1, empty stdout, a
stderr naming the missing capsule, an empty usage dict and empty touched
lists. -/
theorem c10_execute_unknown (host : Dict String) (mem disk : Dict CapMeta)
    (celExec : CapMeta → Dict String → ExecResult) (cid : String)
    (h1 : dlookup mem cid = none) (h2 : dlookup disk cid = none) :
    registryExecute host mem disk celExec cid = notFoundResult cid ∧
    (registryExecute host mem disk celExec cid).exit_code = -1 ∧
    (registryExecute host mem disk celExec cid).stdout = "" ∧
    (registryExecute host mem disk celExec cid).stderr
      = "Capsule " ++ cid ++ " not found" ∧
    (registryExecute host mem disk celExec cid).usage = [] ∧
    (registryExecute host mem disk celExec cid).touched_read = [] ∧
    (registryExecute host mem disk celExec cid).touched_written = [] := by
  have hget : registryGet mem disk cid = none := by
    simp [registryGet, h1, h2, Option.orElse]
  unfold registryExecute
  rw [hget]
  exact ⟨rfl, rfl, rfl, rfl, rfl, rfl, rfl⟩

/-- C10 witness: the unknown-capsule result at a concrete empty registry. -/
theorem c10_execute_unknown_witness :
    registryExecute [] [] [] (fun _ _ => ⟨0, "", "", [], [], []⟩) ("cap_x")
      = notFoundResult ("cap_x") :=
  (c10_execute_unknown [] [] [] (fun _ _ => ⟨0, "", "", [], [], []⟩)
    ("cap_x") rfl rfl).1

theorem foldl_normStep_no_dotdot (p : List String) (acc : List String)
    (hp : ".." ∉ p) :
    p.foldl (fun acc c => if c = ".." then acc.dropLast else acc ++ [c]) acc
      = acc ++ p := by
  induction p generalizing acc with
  | nil => simp
  | cons c rest ih =>
    have hc : c ≠ ".." := fun h => hp (by simp [h])
    have hrest : ".." ∉ rest := fun h => hp (by simp [h])
    simp only [List.foldl_cons, if_neg hc]
    rw [ih _ hrest]
    simp

/-- C6 (counterexample): an absolute cwd containing `..` components resolves,
after anchor-stripping and joining, to a directory outside the mount root:
with mount `tmp/ccw/sandbox` and cwd `/../../../etc` the OS-resolved
directory is `etc`, which does not lie under the mount. -/
theorem c6_counterexample :
    ¬ (normParts ["tmp", "ccw", "sandbox"] <+:
        normParts (resolveWorkCwd ["tmp", "ccw", "sandbox"]
          (some ⟨true, ["..", "..", "..", "etc"]⟩))) := by
  decide

/-- C6 (amended): an absolute cwd is re-rooted by stripping its filesystem
anchor and joining the remainder under the mount root, and the resolved
directory lies within the mount root whenever the cwd contains no `..`
component; with `..` components it can escape the mount. -/
theorem c6_cwd_rerooted (mountParts : List String) (p : PyPath)
    (hp : ".." ∉ p.parts) (_habs : p.absolute = true) :
    resolveWorkCwd mountParts (some p) = mountParts ++ p.parts ∧
    normParts mountParts <+:
      normParts (resolveWorkCwd mountParts (some p)) := by
  have hres : resolveWorkCwd mountParts (some p) = mountParts ++ p.parts := by
    simp [resolveWorkCwd]
  refine ⟨hres, ?_⟩
  rw [hres]
  have : normParts (mountParts ++ p.parts) = normParts mountParts ++ p.parts := by
    unfold normParts
    rw [List.foldl_append]
    exact foldl_normStep_no_dotdot p.parts _ hp
  rw [this]
  exact ⟨p.parts, rfl⟩

/-- C6 witness: the amended statement at mount `tmp/sb` and absolute cwd
`/home/u`. -/
theorem c6_cwd_witness :
    resolveWorkCwd ["tmp", "sb"] (some ⟨true, ["home", "u"]⟩)
      = ["tmp", "sb"] ++ ["home", "u"] ∧
    normParts ["tmp", "sb"] <+:
      normParts (resolveWorkCwd ["tmp", "sb"] (some ⟨true, ["home", "u"]⟩)) :=
  c6_cwd_rerooted ["tmp", "sb"] ⟨true, ["home", "u"]⟩ (by decide) rfl

/-- C8 (counterexample): in the copy (portable) variant, with 101 pre-existing
unchanged files the returned `touched.read` list has 101 entries — the
100-entry cap claimed by the spec is absent from `PortableCEL`. -/
theorem c8_counterexample :
    ((portableDetectChanges manyFilesSnapshot manyFilesSnapshot).1).length
      = 101 ∧
    ¬ ((portableDetectChanges manyFilesSnapshot
        manyFilesSnapshot).1).length ≤ 100 := by
  decide

/-- C8 (amended): the portable (copy) variant returns every pre-existing
snapshot path in `touched.read`, with no cap; the 100-entry cap applies in
the Windows CEL's change detection instead. -/
theorem c8_read_list_cap (before after : Dict Int) :
    (portableDetectChanges before after).1 = before.map Prod.fst ∧
    ((windowsDetectChanges before after).1).length ≤ 100 := by
  constructor
  · rfl
  · simp [windowsDetectChanges]

theorem foldl_min_le_init (xs : List Int) (x : Int) : xs.foldl min x ≤ x := by
  induction xs generalizing x with
  | nil => exact le_refl x
  | cons c rest ih => exact le_trans (ih (min x c)) (min_le_left x c)

theorem foldl_min_le_mem (xs : List Int) (x : Int) :
    ∀ w ∈ xs, xs.foldl min x ≤ w := by
  induction xs generalizing x with
  | nil => intro w hw; simp at hw
  | cons c rest ih =>
    intro w hw
    rcases List.mem_cons.mp hw with h | h
    · subst h
      exact le_trans (foldl_min_le_init rest (min x w)) (min_le_right x w)
    · exact ih (min x c) w h

theorem foldl_min_mem (xs : List Int) (x : Int) : xs.foldl min x ∈ x :: xs := by
  induction xs generalizing x with
  | nil => simp
  | cons c rest ih =>
    have h := ih (min x c)
    rcases min_choice x c with hm | hm <;>
      · rw [List.foldl_cons]
        rcases List.mem_cons.mp h with h' | h' <;>
          simp [h', hm] at * <;> tauto

theorem pyMin_eq_none_iff (l : List Int) : pyMin l = none ↔ l = [] := by
  cases l <;> simp [pyMin]

theorem pyMin_spec (l : List Int) (v : Int) (h : pyMin l = some v) :
    v ∈ l ∧ ∀ w ∈ l, v ≤ w := by
  cases l with
  | nil => simp [pyMin] at h
  | cons x xs =>
    simp only [pyMin, Option.some.injEq] at h
    subst h
    refine ⟨foldl_min_mem xs x, ?_⟩
    intro w hw
    rcases List.mem_cons.mp hw with h | h
    · subst h; exact foldl_min_le_init xs w
    · exact foldl_min_le_mem xs x w h

theorem truthyInt_eq_some (o : Option Int) (v : Int) :
    truthyInt o = some v ↔ o = some v ∧ v ≠ 0 := by
  cases o with
  | none => simp [truthyInt]
  | some a =>
    by_cases ha : a = 0
    · subst ha
      simp [truthyInt]
      intro h; omega
    · simp only [truthyInt, if_pos ha, Option.some.injEq]
      constructor
      · intro h; exact ⟨h, h ▸ ha⟩
      · rintro ⟨h1, _⟩; exact h1

theorem mem_insertAll (l : List String) (acc : List String) (x : String) :
    x ∈ l.foldl (fun a y => if y ∈ a then a else a ++ [y]) acc ↔
      x ∈ acc ∨ x ∈ l := by
  induction l generalizing acc with
  | nil => simp
  | cons y rest ih =>
    simp only [List.foldl_cons, List.mem_cons]
    rw [ih]
    by_cases hy : y ∈ acc
    · simp only [if_pos hy]
      constructor
      · rintro (h | h)
        · exact Or.inl h
        · exact Or.inr (Or.inr h)
      · rintro (h | h | h)
        · exact Or.inl h
        · subst h; exact Or.inl hy
        · exact Or.inr h
    · simp only [if_neg hy, List.mem_append, List.mem_singleton]
      tauto

theorem mem_setUnionFold (ls : List (List String)) (x : String) :
    x ∈ setUnionFold ls ↔ ∃ l ∈ ls, x ∈ l := by
  have main : ∀ (ls : List (List String)) (acc : List String),
      x ∈ ls.foldl
        (fun acc l => l.foldl (fun a x => if x ∈ a then a else a ++ [x]) acc)
        acc ↔ x ∈ acc ∨ ∃ l ∈ ls, x ∈ l := by
    intro ls
    induction ls with
    | nil => intro acc; simp
    | cons l rest ih =>
      intro acc
      simp only [List.foldl_cons]
      rw [ih, mem_insertAll]
      constructor
      · rintro ((h | h) | h)
        · exact Or.inl h
        · exact Or.inr ⟨l, by simp, h⟩
        · rcases h with ⟨l', hl', hx⟩
          exact Or.inr ⟨l', by simp [hl'], hx⟩
      · rintro (h | ⟨l', hl', hx⟩)
        · exact Or.inl (Or.inl h)
        · rcases List.mem_cons.mp hl' with h' | h'
          · subst h'; exact Or.inl (Or.inr hx)
          · exact Or.inr ⟨l', h', hx⟩
  rw [setUnionFold, main]
  simp

theorem filterMap_filter_isSome {α β : Type} (f : α → Option β) (l : List α) :
    l.filterMap f = (l.filter fun a => (f a).isSome).filterMap f := by
  induction l with
  | nil => rfl
  | cons a rest ih =>
    cases hfa : f a with
    | none => simp [List.filterMap_cons, List.filter_cons, hfa, ih]
    | some b => simp [List.filterMap_cons, List.filter_cons, hfa, ih]

/-- C4 (counterexample): with rule `a` defining `max_rss_mb = 0` and rule `b`
defining `max_rss_mb = 5`, the merged limit is 5, while the minimum of the
values *defined* in the resolved rules is 0 — the Python truthiness guard
`if p.max_rss_mb` drops a defined limit of 0. -/
theorem c4_counterexample :
    ((mergePolicies c4Table ["a", "b"]).map PolicyRule.max_rss_mb)
      = some (some 5) ∧
    specMinDefined
      ((resolvePolicies c4Table ["a", "b"]).map PolicyRule.max_rss_mb)
      = some 0 ∧
    ¬ ((some (5 : Int) : Option Int) = some 0) := by
  decide

/-- C4 (amended): for every policy-name list that resolves to a non-empty
rule set, the merged `max_rss_mb` and `max_cpu_ms` are the minimum over the
defined *non-zero* values (a defined value of 0 is treated as absent, and the
field is absent when no rule defines a non-zero value), `deny_paths` and
`require_tests` are the unions of the resolved rules' sets, and
`require_replay_ok` is the logical OR; unknown names are dropped from the
resolution. -/
theorem c4_merge_semantics (table : Dict PolicyRule) (names : List String)
    (m : PolicyRule) (h : mergePolicies table names = some m) :
    ((m.max_rss_mb = none ↔
        ∀ p ∈ resolvePolicies table names, truthyInt p.max_rss_mb = none) ∧
      ∀ v, m.max_rss_mb = some v →
        (∃ p ∈ resolvePolicies table names, p.max_rss_mb = some v ∧ v ≠ 0) ∧
        ∀ p ∈ resolvePolicies table names, ∀ w, p.max_rss_mb = some w →
          w ≠ 0 → v ≤ w) ∧
    ((m.max_cpu_ms = none ↔
        ∀ p ∈ resolvePolicies table names, truthyInt p.max_cpu_ms = none) ∧
      ∀ v, m.max_cpu_ms = some v →
        (∃ p ∈ resolvePolicies table names, p.max_cpu_ms = some v ∧ v ≠ 0) ∧
        ∀ p ∈ resolvePolicies table names, ∀ w, p.max_cpu_ms = some w →
          w ≠ 0 → v ≤ w) ∧
    (∀ x, x ∈ m.deny_paths ↔
      ∃ p ∈ resolvePolicies table names, x ∈ p.deny_paths) ∧
    (∀ x, x ∈ m.require_tests ↔
      ∃ p ∈ resolvePolicies table names, x ∈ p.require_tests) ∧
    (m.require_replay_ok = true ↔
      ∃ p ∈ resolvePolicies table names, p.require_replay_ok = true) ∧
    resolvePolicies table names =
      resolvePolicies table
        (names.filter fun n => (dlookup table n).isSome) := by
  unfold mergePolicies at h
  by_cases hR : (resolvePolicies table names).isEmpty
  · rw [if_pos hR] at h; exact absurd h (by simp)
  · rw [if_neg hR] at h
    injection h with h
    subst h
    refine ⟨⟨?_, ?_⟩, ⟨?_, ?_⟩, ?_, ?_, ?_, ?_⟩
    · rw [pyMin_eq_none_iff, List.filterMap_eq_nil_iff]
    · intro v hv
      obtain ⟨hmem, hle⟩ := pyMin_spec _ v hv
      rcases List.mem_filterMap.mp hmem with ⟨p, hp, hpv⟩
      obtain ⟨hsome, hne⟩ := (truthyInt_eq_some _ _).mp hpv
      refine ⟨⟨p, hp, hsome, hne⟩, ?_⟩
      intro q hq w hw hwne
      exact hle w (List.mem_filterMap.mpr
        ⟨q, hq, (truthyInt_eq_some _ _).mpr ⟨hw, hwne⟩⟩)
    · rw [pyMin_eq_none_iff, List.filterMap_eq_nil_iff]
    · intro v hv
      obtain ⟨hmem, hle⟩ := pyMin_spec _ v hv
      rcases List.mem_filterMap.mp hmem with ⟨p, hp, hpv⟩
      obtain ⟨hsome, hne⟩ := (truthyInt_eq_some _ _).mp hpv
      refine ⟨⟨p, hp, hsome, hne⟩, ?_⟩
      intro q hq w hw hwne
      exact hle w (List.mem_filterMap.mpr
        ⟨q, hq, (truthyInt_eq_some _ _).mpr ⟨hw, hwne⟩⟩)
    · intro x
      rw [mem_setUnionFold]
      constructor
      · rintro ⟨l, hl, hx⟩
        rcases List.mem_map.mp hl with ⟨p, hp, hpl⟩
        exact ⟨p, hp, hpl ▸ hx⟩
      · rintro ⟨p, hp, hx⟩
        exact ⟨p.deny_paths, List.mem_map.mpr ⟨p, hp, rfl⟩, hx⟩
    · intro x
      rw [mem_setUnionFold]
      constructor
      · rintro ⟨l, hl, hx⟩
        rcases List.mem_map.mp hl with ⟨p, hp, hpl⟩
        exact ⟨p, hp, hpl ▸ hx⟩
      · rintro ⟨p, hp, hx⟩
        exact ⟨p.require_tests, List.mem_map.mpr ⟨p, hp, rfl⟩, hx⟩
    · simp [List.any_eq_true]
    · exact filterMap_filter_isSome (dlookup table) names

/-- C4 witness: the amended merge semantics hold at the concrete default
table merged over `["baseline", "strict"]`. -/
theorem c4_merge_witness :
    ((mergedBaselineStrict.max_rss_mb = none ↔
        ∀ p ∈ resolvePolicies defaultPolicies ["baseline", "strict"],
          truthyInt p.max_rss_mb = none) ∧
      ∀ v, mergedBaselineStrict.max_rss_mb = some v →
        (∃ p ∈ resolvePolicies defaultPolicies ["baseline", "strict"],
          p.max_rss_mb = some v ∧ v ≠ 0) ∧
        ∀ p ∈ resolvePolicies defaultPolicies ["baseline", "strict"],
          ∀ w, p.max_rss_mb = some w → w ≠ 0 → v ≤ w) ∧
    ((mergedBaselineStrict.max_cpu_ms = none ↔
        ∀ p ∈ resolvePolicies defaultPolicies ["baseline", "strict"],
          truthyInt p.max_cpu_ms = none) ∧
      ∀ v, mergedBaselineStrict.max_cpu_ms = some v →
        (∃ p ∈ resolvePolicies defaultPolicies ["baseline", "strict"],
          p.max_cpu_ms = some v ∧ v ≠ 0) ∧
        ∀ p ∈ resolvePolicies defaultPolicies ["baseline", "strict"],
          ∀ w, p.max_cpu_ms = some w → w ≠ 0 → v ≤ w) ∧
    (∀ x, x ∈ mergedBaselineStrict.deny_paths ↔
      ∃ p ∈ resolvePolicies defaultPolicies ["baseline", "strict"],
        x ∈ p.deny_paths) ∧
    (∀ x, x ∈ mergedBaselineStrict.require_tests ↔
      ∃ p ∈ resolvePolicies defaultPolicies ["baseline", "strict"],
        x ∈ p.require_tests) ∧
    (mergedBaselineStrict.require_replay_ok = true ↔
      ∃ p ∈ resolvePolicies defaultPolicies ["baseline", "strict"],
        p.require_replay_ok = true) ∧
    resolvePolicies defaultPolicies ["baseline", "strict"] =
      resolvePolicies defaultPolicies
        (["baseline", "strict"].filter fun n =>
          (dlookup defaultPolicies n).isSome) :=
  c4_merge_semantics defaultPolicies ["baseline", "strict"]
    mergedBaselineStrict (by decide)

/-- C9: when the merged policy requires tests but no workspace is supplied,
`validate` runs no test command, reports empty `test_failures` and
`tests_ok = true`, and `passed` reduces to the path/resource/replay checks
alone — so a report can pass although required tests never ran. -/
theorem c9_tests_skipped_without_workspace (table : Dict PolicyRule)
    (home : String) (runTest : String → Bool) (names : List String)
    (paths : List String) (usage : Usage) (rh eh : Option String)
    (m : PolicyRule) (hm : mergePolicies table names = some m)
    (_hreq : m.require_tests ≠ []) :
    (validate table home runTest names paths usage rh eh none).test_failures
      = [] ∧
    (validate table home runTest names paths usage rh eh none).tests_ok
      = true ∧
    testsExecuted m none = [] ∧
    (validate table home runTest names paths usage rh eh none).passed =
      ((validate table home runTest names paths usage rh eh none).paths_ok &&
        (validate table home runTest names paths usage rh eh none).resource_ok
        && (validate table home runTest names paths usage rh eh
          none).replay_ok) := by
  unfold validate
  rw [hm]
  simp [testsExecuted]

/-- C9 witness: with the `strict` policy (which requires `uv run pytest -q`),
no workspace, matching replay hashes and zero usage, validation passes even
though the required test never ran (the oracle would fail every command). -/
theorem c9_tests_skipped_witness :
    (validate defaultPolicies ("/root") (fun _ => false) (["strict"]) []
      ⟨0, 0⟩ (some ("h")) (some ("h")) none).test_failures = [] ∧
    (validate defaultPolicies ("/root") (fun _ => false) (["strict"]) []
      ⟨0, 0⟩ (some ("h")) (some ("h")) none).tests_ok = true ∧
    testsExecuted mergedStrict none = [] ∧
    mergedStrict.require_tests ≠ [] ∧
    (validate defaultPolicies ("/root") (fun _ => false) (["strict"]) []
      ⟨0, 0⟩ (some ("h")) (some ("h")) none).passed = true := by
  have h := c9_tests_skipped_without_workspace defaultPolicies ("/root")
    (fun _ => false) (["strict"]) [] ⟨0, 0⟩ (some ("h")) (some ("h"))
    mergedStrict (by decide) (by decide)
  exact ⟨h.1, h.2.1, h.2.2.1, by decide, by decide⟩

theorem hashStringM_data (s : String) :
    (hashStringM s).data = 'b' :: 'l' :: 'a' :: 'k' :: 'e' :: '3' :: ':' ::
      ((s.data.map fun c => (u4 c.toNat).data).flatten) := rfl

theorem hashStringM_ne_empty (s : String) : hashStringM s ≠ "" := by
  intro h
  have hdata := congrArg String.data h
  rw [hashStringM_data] at hdata
  simp at hdata

theorem witnessRootHash_ne_empty (f : WitnessFiles) :
    witnessRootHash f ≠ "" := hashStringM_ne_empty _

/-- C2: creating a witness and replaying it (with its directory files
untouched in between, as the model state guarantees) yields
`replay_ok = true` and the same root hash as `create` returned; that root
hash is BLAKE3 over the bytes of `manifest.json` followed by the bytes of
`hashes.json`. -/
theorem c2_create_then_replay (st : WitnessState) (cid : String)
    (mount : Dict (List Nat)) (changes : List String) (compress : String)
    (includeBlobs : Bool) (tsMs : Nat) (createdAtRepr : String) :
    (witnessReplay
      (witnessCreate st cid mount changes compress includeBlobs tsMs
        createdAtRepr).1
      (witnessCreate st cid mount changes compress includeBlobs tsMs
        createdAtRepr).2.witness_id).replay_ok = true ∧
    (witnessReplay
      (witnessCreate st cid mount changes compress includeBlobs tsMs
        createdAtRepr).1
      (witnessCreate st cid mount changes compress includeBlobs tsMs
        createdAtRepr).2.witness_id).root_hash =
      (witnessCreate st cid mount changes compress includeBlobs tsMs
        createdAtRepr).2.root_hash ∧
    (dlookup
      (witnessCreate st cid mount changes compress includeBlobs tsMs
        createdAtRepr).1.storage
      (witnessCreate st cid mount changes compress includeBlobs tsMs
        createdAtRepr).2.witness_id).map witnessRootHash =
      some (witnessCreate st cid mount changes compress includeBlobs tsMs
        createdAtRepr).2.root_hash := by
  unfold witnessCreate witnessReplay
  simp only [dlookup_dinsert_self]
  rw [if_pos (witnessRootHash_ne_empty _)]
  refine ⟨?_, rfl, rfl⟩
  exact beq_self_eq_true _

/-- C3 (counterexample): two `witness.create` calls with identical mount,
changes, compress and include_blobs inputs but different clock readings
produce different root hashes, because the manifest embeds the time-derived
`witness_id` and `created_at`. -/
theorem c3_counterexample :
    (witnessCreate ⟨[], []⟩ ("cap_1") [] [] ("none") false 1
      ("1.0")).2.root_hash ≠
    (witnessCreate ⟨[], []⟩ ("cap_1") [] [] ("none") false 2
      ("2.0")).2.root_hash := by
  decide

/-- C3 (amended): the root hash of `witness.create` is a function of the
mount contents, changes, compress and include_blobs inputs *together with*
the observed clock readings (the millisecond id timestamp and the
`created_at` repr); two calls agreeing on all of these — regardless of
engine state — produce identical root hashes, while calls at different
times differ in the manifest and hence in the root hash. -/
theorem c3_root_hash_determined (st1 st2 : WitnessState) (cid : String)
    (mount : Dict (List Nat)) (changes : List String) (compress : String)
    (includeBlobs : Bool) (tsMs : Nat) (createdAtRepr : String) :
    (witnessCreate st1 cid mount changes compress includeBlobs tsMs
      createdAtRepr).2.root_hash =
    (witnessCreate st2 cid mount changes compress includeBlobs tsMs
      createdAtRepr).2.root_hash := rfl

/-- C5: a `dry_run` promote whose validation passes returns
`promoted = false`, `applied` equal to the full change list and the passing
report embedded, and leaves the target filesystem unchanged. -/
theorem c5_dry_run_no_changes (table : Dict PolicyRule) (home : String)
    (runTest : String → Bool) (mountFS targetFS : Dict (List Nat))
    (changes : List String) (policies : List String) (usage : Usage)
    (rh eh : Option String)
    (hpass : (validate table home runTest policies changes usage rh eh
      (some ("target"))).passed = true) :
    promote table home runTest mountFS targetFS changes policies usage rh eh
      true =
    (targetFS,
     ⟨false, changes,
      validate table home runTest policies changes usage rh eh
        (some ("target")),
      "Dry run - no changes applied"⟩) := by
  simp [promote, hpass]

/-- C5 witness: a concrete passing dry-run promote over the baseline policy,
with content present under the mount, applies nothing to the target. -/
theorem c5_dry_run_witness :
    promote defaultPolicies ("/root") (fun _ => true) [("b.txt", [3])]
      [("a.txt", [1, 2])] ["b.txt"] ["baseline"] ⟨0, 0⟩ none none true =
    ([("a.txt", [1, 2])],
     ⟨false, ["b.txt"],
      validate defaultPolicies ("/root") (fun _ => true) ["baseline"]
        ["b.txt"] ⟨0, 0⟩ none none (some ("target")),
      "Dry run - no changes applied"⟩) :=
  c5_dry_run_no_changes defaultPolicies ("/root") (fun _ => true)
    [("b.txt", [3])] [("a.txt", [1, 2])] ["b.txt"] ["baseline"] ⟨0, 0⟩
    none none (by decide)

end CcwMcp
